import Mathlib

/-!
A shallow embedding of the execution core of `src/run.cpp` (a stack-based
JVM-family bytecode interpreter), together with theorems settling the frozen
claims about it.  Machine integers are modelled as `Nat` bit patterns (32-bit
words on the operand stack, normalised with explicit `% 2 ^ 32`) and `Int`
two's-complement views; fallible operations return explicit outcome records.
-/

namespace AvianRun

/-- Two's-complement signed view of a 32-bit word pattern (a `Nat` below `2 ^ 32`),
as produced by the C++ conversion of a `uint32_t` to `int32_t`. -/
def i32 (n : Nat) : Int :=
  if n % 2 ^ 32 < 2 ^ 31 then (n % 2 ^ 32 : Int) else (n % 2 ^ 32 : Int) - 2 ^ 32

/-- Unsigned 32-bit word pattern of an integer, as produced by the C++
conversion of an integer value to `uint32_t` (reduction modulo `2 ^ 32`). -/
def u32 (x : Int) : Nat := (x % 2 ^ 32).toNat

/-- Unsigned 64-bit pattern of an integer (C++ conversion to `uint64_t`). -/
def u64 (x : Int) : Nat := (x % 2 ^ 64).toNat

/-- Two's-complement signed view of a 64-bit pattern. -/
def i64 (n : Nat) : Int :=
  if n % 2 ^ 64 < 2 ^ 63 then (n % 2 ^ 64 : Int) else (n % 2 ^ 64 : Int) - 2 ^ 64

/-- Sign extension of an 8-bit byte to a signed integer (what a
`static_cast<int8_t>` of the byte would yield). -/
def signExtend8 (b : Nat) : Int :=
  if b % 2 ^ 8 < 2 ^ 7 then (b % 2 ^ 8 : Int) else (b % 2 ^ 8 : Int) - 2 ^ 8

/-- Sign extension of a 16-bit value to a signed integer. -/
def signExtend16 (v : Nat) : Int :=
  if v % 2 ^ 16 < 2 ^ 15 then (v % 2 ^ 16 : Int) else (v % 2 ^ 16 : Int) - 2 ^ 16

/-- Big-endian combination of two bytes: `(b1 << 8) | b2` for bytes. -/
def be16 (b1 b2 : Nat) : Nat := b1 % 256 * 256 + b2 % 256

/-- Big-endian combination of four bytes:
`(b1 << 24) | (b2 << 16) | (b3 << 8) | b4` for bytes. -/
def be32 (b1 b2 b3 b4 : Nat) : Nat :=
  ((b1 % 256 * 256 + b2 % 256) * 256 + b3 % 256) * 256 + b4 % 256

/-- Modelled from the spec: `codeBody(t, code, ip)` reads the method's code
byte array (data model: "Code: byte array of opcodes"; the accessor itself is
generated outside this excerpt).  The bytes are unsigned values 0..255: the
dispatch loop switches an `unsigned instruction` read from `codeBody` against
opcode constants above `0x7f`, and every operand read in `run.cpp` stores the
result into a `uint8_t` local, which forces the unsigned reading. -/
def codeBody (code : List Nat) (ip : Nat) : Nat := code.getD ip 0 % 256

/-- The operand stack region, as a list of 32-bit value words with the head as
top-of-stack.  Each logical slot in the source also carries an is-object tag
word; the tag is irrelevant to the arithmetic claims and is modelled only in
the object-typed stack used by the frame/unwind development below. -/
abbrev WStack := List Nat

/-- Source `pushInt(t, v)`: push one slot holding the 32-bit pattern of `v`
(the C++ parameter conversion to a 32-bit word truncates modulo `2 ^ 32`). -/
def pushInt (s : WStack) (v : Int) : WStack := u32 v :: s

/-- Source `popInt(t)` as read into an `int32_t` local (the use sites in
`run.cpp` bind the popped word to `int32_t`): the signed view of the top slot,
and the remaining stack. -/
def popInt (s : WStack) : Int × WStack := (i32 (s.headD 0), s.tail)

/-- Modelled from the spec (the slot primitives live in a header outside this
excerpt): a long occupies two logical slots ("Longs and doubles occupy two
logical slots"); we store the high word below the low word, with the low word
on top. -/
def pushLong (s : WStack) (v : Int) : WStack :=
  u64 v % 2 ^ 32 :: u64 v / 2 ^ 32 :: s

/-- Modelled from the spec: pop two slots and recombine them into the signed
64-bit value (inverse of `pushLong`). -/
def popLong (s : WStack) : Int × WStack :=
  (i64 (s.tail.headD 0 * 2 ^ 32 + s.headD 0), s.tail.tail)

/-- Source `case bipush` (run.cpp:757): `pushInt(t, codeBody(t, code, ip++));`.
The operand byte is handed to `pushInt` unchanged, so it is zero-extended.
Called with `ip` already past the opcode byte; returns the new `ip` and the
new stack. -/
def bipushStep (code : List Nat) (ip : Nat) (s : WStack) : Nat × WStack :=
  (ip + 1, pushInt s (codeBody code ip))

/-- Source `case sipush` (run.cpp:2053): two operand bytes are read into
`uint8_t` locals and pushed as `(byte1 << 8) | byte2`, with no sign
extension. -/
def sipushStep (code : List Nat) (ip : Nat) (s : WStack) : Nat × WStack :=
  (ip + 2, pushInt s (be16 (codeBody code ip) (codeBody code (ip + 1))))

/-- Arithmetic (sign-propagating) right shift of an integer: floor division by
`2 ^ n`, which is what `>>` on a negative `int32_t` performs on the source's
host compilers. -/
def ashr (a : Int) (n : Nat) : Int := Int.fdiv a (2 ^ n)

/-- Source `case iushr` (run.cpp:1510): `b` and `a` are popped as `int32_t`
and the pushed value is `static_cast<uint32_t>(a >> b)` - the shift itself is
performed on the signed value and only the result is reinterpreted as
unsigned.  Shift counts outside `[0, 32)` are undefined behaviour in the
source; the embedding clamps the count with `toNat` only to stay total. -/
def iushrStep (s : WStack) : WStack :=
  let p1 := popInt s
  let p2 := popInt p1.2
  pushInt p2.2 (ashr p2.1 p1.1.toNat)

/-- The claim's semantics for `iushr`: logical (unsigned) right shift, i.e.
the 32-bit pattern of `a` shifted with zero fill. -/
def iushrLogical (s : WStack) : WStack :=
  let p1 := popInt s
  let p2 := popInt p1.2
  u32 p2.1 / 2 ^ p1.1.toNat :: p2.2

/-- Source `case goto_w` (run.cpp:986): four offset bytes are read (so `ip`
advances from `pc + 1` to `pc + 5`) and then `ip = (ip - 5) + offset32`.
`pc` is the address of the `goto_w` opcode byte; the result is the new `ip`
(unsigned 32-bit arithmetic). -/
def gotoWStep (code : List Nat) (pc : Nat) : Nat :=
  let off := i32 (be32 (codeBody code (pc + 1)) (codeBody code (pc + 2))
    (codeBody code (pc + 3)) (codeBody code (pc + 4)))
  u32 ((pc : Int) + 5 - 5 + off)

/-- Source `case jsr_w` (run.cpp:1532): four offset bytes are read (so `ip`
advances to `pc + 5`), `pushInt(t, ip)` pushes the return address, and then
`ip = (ip - 3) + offset32` - the same rewind as the 3-byte `jsr`, although
this instruction occupies 5 bytes.  Returns the stack after the push and the
new `ip`. -/
def jsrWStep (code : List Nat) (pc : Nat) (s : WStack) : WStack × Nat :=
  let off := i32 (be32 (codeBody code (pc + 1)) (codeBody code (pc + 2))
    (codeBody code (pc + 3)) (codeBody code (pc + 4)))
  (pushInt s ((pc : Int) + 5), u32 ((pc : Int) + 5 - 3 + off))

/-- Source `wide iinc` (run.cpp:2088): the 2-byte index and the 2-byte count
are read big-endian; the count is held in a `uint16_t` and added to the local
with no sign extension.  The locals are 32-bit words (addition wraps modulo
`2 ^ 32`).  `ip` points just past the widened `iinc` opcode byte on entry;
returns the new locals and the new `ip`. -/
def wideIincStep (code : List Nat) (ip : Nat) (locals : List Nat) :
    List Nat × Nat :=
  let index := be16 (codeBody code ip) (codeBody code (ip + 1))
  let count := be16 (codeBody code (ip + 2)) (codeBody code (ip + 3))
  (locals.set index (u32 ((locals.getD index 0 : Int) + count)), ip + 4)

/-- The claim's semantics for `wide iinc`: the 16-bit count is sign-extended
before being added to the local in 32-bit two's-complement arithmetic. -/
def wideIincSigned (code : List Nat) (ip : Nat) (locals : List Nat) :
    List Nat × Nat :=
  let index := be16 (codeBody code ip) (codeBody code (ip + 1))
  let count := be16 (codeBody code (ip + 2)) (codeBody code (ip + 3))
  (locals.set index (u32 ((locals.getD index 0 : Int) + signExtend16 count)), ip + 4)

/-- Source `case lneg` (run.cpp:1699): `pushLong(t, - popInt(t));` - a single
32-bit slot is popped and its negation is pushed as a 64-bit long occupying
two slots. -/
def lnegStepCode (s : WStack) : WStack :=
  let p := popInt s
  pushLong p.2 (-p.1)

/-- The claim's semantics for `lneg`: pop one 64-bit long (two slots) and push
its two's-complement 64-bit negation. -/
def lnegStepClaim (s : WStack) : WStack :=
  let p := popLong s
  pushLong p.2 (-p.1)

/-!
Constant-pool resolution (run.cpp:218-295).  Heap objects are modelled by
`Nat` identities; byte-array names and specs are compared byte-exactly in the
source, so two names are equal iff their identities are.  A constant-pool slot
holds either a symbolic byte-array class name (`ByteArrayType`), a symbolic
member reference triple (`ReferenceType`), some other object (a resolved
class, field, method or literal), or the null reference that a failed member
lookup writes back.
-/

/-- A constant-pool slot, discriminated the way `resolveClass` and `resolve`
discriminate it by `objectClass`. -/
inductive PoolEntry where
  | byteArray (name : Nat)
  | reference (className name spec : Nat)
  | entity (e : Nat)
  | nullRef
  deriving DecidableEq, Repr

/-- Per-class data used by resolution: the super link and the field and method
tables.  A table entry is `(name, spec, entity)`; `find` (run.cpp:183) matches
name and spec byte-exactly. -/
structure ClassInfo where
  super : Option Nat
  fields : List (Nat × Nat × Nat)
  methods : List (Nat × Nat × Nat)

/-- Source `find` (run.cpp:183): scan a class member table for a byte-exact
`(name, spec)` match and return the entity. -/
def findMember (table : List (Nat × Nat × Nat)) (nm sp : Nat) : Option Nat :=
  (table.find? fun m => m.1 = nm ∧ m.2.1 = sp).map fun m => m.2.2

/-- The member-lookup loop of `resolve` (run.cpp:266): walk the class chain
upward via `classSuper`, returning the first match.  `fuel` bounds the chain
length (the source would not terminate on a cyclic hierarchy). -/
def findInChain (classes : Nat → ClassInfo)
    (table : ClassInfo → List (Nat × Nat × Nat)) (nm sp : Nat) :
    Nat → Option Nat → Option Nat
  | 0, _ => none
  | _, none => none
  | fuel + 1, some c =>
    match findMember (table (classes c)) nm sp with
    | some e => some e
    | none => findInChain classes table nm sp fuel (classes c).super

/-- Outcome of a resolution call: the (possibly rewritten) pool, the returned
object, and whether `t->exception` was set. -/
structure ResolveOut where
  pool : List PoolEntry
  result : PoolEntry
  raised : Bool
  deriving DecidableEq, Repr

/-- Source `resolveClass(t, pool, index)` (run.cpp:218): if the slot is still
a symbolic byte-array name, ask the class finder (`finder`, an external
collaborator) to resolve it; on success overwrite the slot with the resolved
class, on failure propagate the pending error leaving the slot untouched; any
other slot content is returned as-is. -/
def resolveClassSlot (finder : Nat → Option Nat) (pool : List PoolEntry)
    (i : Nat) : ResolveOut :=
  match pool.getD i .nullRef with
  | .byteArray n =>
    match finder n with
    | some c => ⟨pool.set i (.entity c), .entity c, false⟩
    | none => ⟨pool, .nullRef, true⟩
  | e => ⟨pool, e, false⟩

/-- Source `resolve` (run.cpp:250), shared by `resolveField` and
`resolveMethod`: if the slot is still a `Reference` triple, resolve the
reference's class (failure propagates, slot untouched), walk the class chain
for a byte-exact member match, and overwrite the slot with the result - the
found entity on a hit, or the null reference (with a pending
no-such-field/method error) on a miss.  The memoization of the resolved class
into the reference object itself (run.cpp:245) mutates the reference, not the
pool slot, and is elided. -/
def resolveMemberSlot (finder : Nat → Option Nat) (classes : Nat → ClassInfo)
    (table : ClassInfo → List (Nat × Nat × Nat)) (fuel : Nat)
    (pool : List PoolEntry) (i : Nat) : ResolveOut :=
  match pool.getD i .nullRef with
  | .reference cname nm sp =>
    match finder cname with
    | none => ⟨pool, .nullRef, true⟩
    | some c =>
      match findInChain classes table nm sp fuel (some c) with
      | some e => ⟨pool.set i (.entity e), .entity e, false⟩
      | none => ⟨pool.set i .nullRef, .nullRef, true⟩
  | e => ⟨pool, e, false⟩

/-- Source `resolveField` (run.cpp:285): `resolve` over the field tables. -/
def resolveFieldSlot (finder : Nat → Option Nat) (classes : Nat → ClassInfo)
    (fuel : Nat) (pool : List PoolEntry) (i : Nat) : ResolveOut :=
  resolveMemberSlot finder classes ClassInfo.fields fuel pool i

/-- Source `resolveMethod` (run.cpp:291): `resolve` over the method tables. -/
def resolveMethodSlot (finder : Nat → Option Nat) (classes : Nat → ClassInfo)
    (fuel : Nat) (pool : List PoolEntry) (i : Nat) : ResolveOut :=
  resolveMemberSlot finder classes ClassInfo.methods fuel pool i

/-!
Class hierarchy context and `instanceOf` (run.cpp:115-140).
-/

/-- The object-model context consulted by the interpreter: the class finder,
the super links, interface flags, interface-table keys (the even-index entries
of `classInterfaceTable`), and the class of each object. -/
structure Ctx where
  finder : Nat → Option Nat
  super : Nat → Option Nat
  isInterface : Nat → Bool
  itable : Nat → List Nat
  classOf : Nat → Nat

/-- The ancestor chain `oc, classSuper(oc), ...` walked by `instanceOf`,
bounded by `fuel` (the source would not terminate on a cyclic hierarchy). -/
def classChain (ctx : Ctx) : Nat → Nat → List Nat
  | 0, _ => []
  | fuel + 1, c =>
    c :: (match ctx.super c with
          | none => []
          | some s => classChain ctx fuel s)

/-- Source `instanceOf` (run.cpp:115): null is never an instance; for an
interface, scan the interface table of every ancestor of the object's class
for the interface; otherwise look for the class itself among the ancestors. -/
def instanceOf (ctx : Ctx) (fuel : Nat) (class_ : Nat) (o : Option Nat) :
    Bool :=
  match o with
  | none => false
  | some obj =>
    if ctx.isInterface class_ then
      (classChain ctx fuel (ctx.classOf obj)).any fun oc =>
        (ctx.itable oc).contains class_
    else
      (classChain ctx fuel (ctx.classOf obj)).contains class_

/-!
The `checkcast` and `instanceof` opcode handlers (run.cpp:804-824 and
run.cpp:1306-1324).
-/

/-- A stack slot: a 32-bit value word or a tagged object slot (`none` is the
null reference). -/
inductive Value where
  | int (n : Nat)
  | obj (o : Option Nat)
  deriving DecidableEq, Repr

/-- Language-visible exceptions relevant to the embedded handlers. -/
inductive Exc where
  | linkError
  | classCast (actual target : Nat)
  deriving DecidableEq, Repr

/-- Thread state projected for the type-check opcodes: code, instruction
pointer (pointing just past the opcode byte on entry), operand stack (head =
top), constant pool, and the pending exception. -/
structure TState where
  code : List Nat
  ip : Nat
  stack : List Value
  pool : List PoolEntry
  exception : Option Exc
  deriving DecidableEq, Repr

/-- Source `peekObject(t, sp - 1)`: the top stack slot read as an object.  The
handlers only ever apply it to object-typed slots; a value word is read as
null to keep the function total. -/
def peekObj (stack : List Value) : Option Nat :=
  match stack.headD (.obj none) with
  | .obj o => o
  | .int _ => none

/-- The class object held in a pool slot (the handlers use the result of
`resolveClass` directly as a class; any other content would be a type
confusion in the source and is mapped to class 0). -/
def entityId : PoolEntry → Nat
  | .entity e => e
  | _ => 0

/-- Source `case checkcast` (run.cpp:804): the two index bytes are always
consumed; only if the top-of-stack operand is non-null is the class resolved
(possibly raising a link error) and `instanceOf` checked, raising
`ClassCastException` on failure; the operand is never popped. -/
def checkcastStep (ctx : Ctx) (fuel : Nat) (s : TState) : TState :=
  let index1 := codeBody s.code s.ip
  let index2 := codeBody s.code (s.ip + 1)
  let ip' := s.ip + 2
  match peekObj s.stack with
  | some obj =>
    let r := resolveClassSlot ctx.finder s.pool (be16 index1 index2 - 1)
    if r.raised then
      { s with ip := ip', pool := r.pool, exception := some .linkError }
    else if instanceOf ctx fuel (entityId r.result) (some obj) then
      { s with ip := ip', pool := r.pool }
    else
      { s with ip := ip', pool := r.pool,
               exception := some (.classCast (ctx.classOf obj) (entityId r.result)) }
  | none => { s with ip := ip' }

/-- Source `case instanceof` (run.cpp:1306): the two index bytes are always
consumed; a null operand pushes 0 with no resolution; otherwise the class is
resolved (possibly raising a link error) and 1 or 0 is pushed according to
`instanceOf`.  The operand is not popped before the push. -/
def instanceofStep (ctx : Ctx) (fuel : Nat) (s : TState) : TState :=
  let index1 := codeBody s.code s.ip
  let index2 := codeBody s.code (s.ip + 1)
  let ip' := s.ip + 2
  match peekObj s.stack with
  | some obj =>
    let r := resolveClassSlot ctx.finder s.pool (be16 index1 index2 - 1)
    if r.raised then
      { s with ip := ip', pool := r.pool, exception := some .linkError }
    else if instanceOf ctx fuel (entityId r.result) (some obj) then
      { s with ip := ip', pool := r.pool, stack := .int 1 :: s.stack }
    else
      { s with ip := ip', pool := r.pool, stack := .int 0 :: s.stack }
  | none => { s with ip := ip', stack := .int 0 :: s.stack }

/-!
Frames, monitors and the exception unwinder (run.cpp:15-77 and
run.cpp:2150-2192).
-/

/-- Modelled from the spec: `FrameFootprint` is defined in a header outside
this excerpt; the data model fixes the frame record as "a fixed
`FrameFootprint` of words containing: saved ip, previous frame index, base,
owning method", i.e. four slots. -/
def FrameFootprint : Nat := 4

/-- An exception-handler table entry.  `catchType` is modelled as the resolved
catch class, with `none` for a zero catch-type index ("catch any"); the lazy
resolution of a still-symbolic catch type (run.cpp:2170-2180) goes through the
pool machinery embedded above and is orthogonal to the walk itself. -/
structure Handler where
  startPc : Nat
  endPc : Nat
  handlerPc : Nat
  catchType : Option Nat
  deriving DecidableEq, Repr

/-- The method attributes consulted by the frame manager and the unwinder. -/
structure SMethod where
  isNative : Bool
  isSync : Bool
  isStatic : Bool
  klass : Nat
  paramFootprint : Nat
  maxLocals : Nat
  handlers : List Handler
  deriving DecidableEq, Repr

/-- A frame record: the owning method, the base (start of parameters/locals),
the saved instruction pointer (the `FrameIpOffset` slot), and the frame's
stack index (`t->frame`).  The frame metadata lives in stack words in the
source; here it is mirrored in this record and its stack cells are placeholder
words. -/
structure UFrame where
  method : SMethod
  base : Nat
  savedIp : Nat
  pos : Nat
  deriving DecidableEq, Repr

/-- Modelled from the spec: the monitor subsystem (an external collaborator,
"provides acquire/release on any object with recursive ownership by a
thread").  For the single-thread runs modelled here its observable state is
the per-object acquisition count; `acquire` increments it. -/
def acquire (mon : Nat → Nat) (o : Nat) : Nat → Nat :=
  fun x => if x = o then mon x + 1 else mon x

/-- Modelled from the spec: `release` decrements the per-object acquisition
count. -/
def release (mon : Nat → Nat) (o : Nat) : Nat → Nat :=
  fun x => if x = o then mon x - 1 else mon x

/-- Thread state for the frame/unwind development: the occupied stack region
(index 0 = bottom, length = `sp`), the frame chain (head = current frame), the
monitor acquisition counts, the instruction pointer, and the pending
exception. -/
structure MState where
  stack : List Value
  frames : List UFrame
  monitors : Nat → Nat
  ip : Nat
  exception : Option Nat

/-- Source `peekObject(t, i)` on the flat stack: the slot at index `i` read as
an object. -/
def objAt (stack : List Value) (i : Nat) : Option Nat :=
  match stack.getD i (.obj none) with
  | .obj o => o
  | .int _ => none

/-- The monitor acquired on entry to a synchronized method (run.cpp:46-52):
the method's class if static, else the receiver at `base`.  A null receiver
would crash the source's monitor subsystem; it is read as object 0 here. -/
def monitorTarget (m : SMethod) (stack : List Value) (base : Nat) : Nat :=
  if m.isStatic then m.klass else (objAt stack base).getD 0

/-- Source `pushFrame` (run.cpp:15): persist the caller's `ip` into its frame,
compute `base = sp - parameterFootprint`, zero-initialize the non-parameter
locals (for non-native methods, which use `maxLocals`), lay down the frame
record at `base + locals`, set `sp` past the frame footprint, reset `ip`, and
acquire the monitor if the method is synchronized. -/
def pushFrame (m : SMethod) (st : MState) : MState :=
  let callerFrames :=
    match st.frames with
    | [] => []
    | c :: r => { c with savedIp := st.ip } :: r
  let base := st.stack.length - m.paramFootprint
  let locals := if m.isNative then m.paramFootprint else m.maxLocals
  let fpos := base + locals
  let stack2 := st.stack ++ List.replicate (locals - m.paramFootprint) (Value.int 0)
    ++ List.replicate FrameFootprint (Value.int 0)
  { stack := stack2
    frames := ⟨m, base, 0, fpos⟩ :: callerFrames
    monitors :=
      if m.isSync then acquire st.monitors (monitorTarget m st.stack base)
      else st.monitors
    ip := 0
    exception := st.exception }

/-- Source `popFrame` (run.cpp:55): release the monitor if the method is
synchronized, restore `sp` to the frame's base, pop the frame, and restore the
caller's `ip` (or 0 when no frame remains). -/
def popFrame (st : MState) : MState :=
  match st.frames with
  | [] => st
  | f :: rest =>
    { stack := st.stack.take f.base
      frames := rest
      monitors :=
        if f.method.isSync then
          release st.monitors (monitorTarget f.method st.stack f.base)
        else st.monitors
      ip := match rest with | [] => 0 | c :: _ => c.savedIp
      exception := st.exception }

/-- Unsigned 32-bit `ip - 1`, as computed by the handler-range test
(run.cpp:2167) on an `unsigned` instruction pointer. -/
def u32pred (ip : Nat) : Nat := (ip + (2 ^ 32 - 1)) % 2 ^ 32

/-- The inner handler-table scan of the `throw_` loop (run.cpp:2164-2190),
with the source's control structure: handlers are visited in table order; a
handler whose `[startPc, endPc)` contains `ip - 1` is taken if its catch type
is null or the exception is an instance of it, otherwise the scan continues. -/
def findHandlerCode (ctx : Ctx) (fuel exc ip : Nat) :
    List Handler → Option Handler
  | [] => none
  | eh :: rest =>
    if eh.startPc ≤ u32pred ip ∧ u32pred ip < eh.endPc then
      match eh.catchType with
      | none => some eh
      | some c =>
        if instanceOf ctx fuel c (some exc) then some eh
        else findHandlerCode ctx fuel exc ip rest
    else findHandlerCode ctx fuel exc ip rest

/-- The claim's handler-match predicate, written as the spec states it: the
handler's `[startPc, endPc)` contains `ip − 1` and the catch type is null or
satisfies `instanceOf`. -/
def handlerMatches (ctx : Ctx) (fuel exc ip : Nat) (eh : Handler) : Bool :=
  decide (eh.startPc ≤ ip - 1) && decide (ip - 1 < eh.endPc) &&
    (match eh.catchType with
     | none => true
     | some c => instanceOf ctx fuel c (some exc))

/-- Classification of where the frame walk of `throw_` ends. -/
inductive UnwindResult where
  | handled (f : UFrame) (eh : Handler) (rest : List UFrame)
  | nativePause (f : UFrame) (rest : List UFrame)
  | uncaught
  deriving DecidableEq, Repr

/-- The frame walk of the `throw_` loop (run.cpp:2156-2192) as the source
performs it: frames are visited from current to root; a native frame stops the
walk (run.cpp:2157, control returns to the native caller); otherwise the
frame's handler table is scanned with `findHandlerCode` against the frame's
saved `ip`; a frame with no match is discarded and the walk continues; an
empty walk is an uncaught exception. -/
def unwindCode (ctx : Ctx) (fuel exc : Nat) : List UFrame → UnwindResult
  | [] => .uncaught
  | f :: rest =>
    if f.method.isNative then .nativePause f rest
    else
      match findHandlerCode ctx fuel exc f.savedIp f.method.handlers with
      | some eh => .handled f eh rest
      | none => unwindCode ctx fuel exc rest

/-- The claim's description of the walk: in each non-native frame, select the
first handler (in table order) satisfying `handlerMatches`. -/
def unwindSpec (ctx : Ctx) (fuel exc : Nat) : List UFrame → UnwindResult
  | [] => .uncaught
  | f :: rest =>
    if f.method.isNative then .nativePause f rest
    else
      match f.method.handlers.find? (handlerMatches ctx fuel exc f.savedIp) with
      | some eh => .handled f eh rest
      | none => unwindSpec ctx fuel exc rest

/-- The full `throw_` walk with its state effects (run.cpp:2156-2192): frames
with no matching handler are discarded by `frame = frameNext` with no other
state change - in particular no monitor release; on a native frame the walk
returns with the exception still pending; on a match (run.cpp:2183-2186) the
operand stack is truncated to `frame + FrameFootprint`, `ip` is set to the
handler's pc, the exception is pushed as the sole operand and the pending
exception is cleared; past the root frame the exception is uncaught and stays
pending. -/
def unwindFrames (ctx : Ctx) (fuel exc : Nat) (stack : List Value)
    (mon : Nat → Nat) : List UFrame → MState
  | [] => ⟨stack, [], mon, 0, some exc⟩
  | f :: rest =>
    if f.method.isNative then ⟨stack, f :: rest, mon, f.savedIp, some exc⟩
    else
      match findHandlerCode ctx fuel exc f.savedIp f.method.handlers with
      | some eh =>
        ⟨stack.take (f.pos + FrameFootprint) ++ [Value.obj (some exc)],
         f :: rest, mon, eh.handlerPc, none⟩
      | none => unwindFrames ctx fuel exc stack mon rest

/-- Entry to `throw_` (run.cpp:2155): the current `ip` is persisted into the
current frame's saved-ip slot and the frame walk starts; with no pending
exception the state is untouched (the label is only reached with one). -/
def throwStep (ctx : Ctx) (fuel : Nat) (st : MState) : MState :=
  match st.exception with
  | none => st
  | some exc =>
    let frames' :=
      match st.frames with
      | [] => []
      | c :: r => { c with savedIp := st.ip } :: r
    unwindFrames ctx fuel exc st.stack st.monitors frames'

/-!
Class initialization on static field access (run.cpp:937-951 and
run.cpp:1951-1965).
-/

/-- Control disposition after an opcode handler: fall through to the dispatch
loop, jump to the `invoke` transition, or jump to `throw_`. -/
inductive Ctl where
  | fall
  | invoke
  | thrown
  deriving DecidableEq, Repr

/-- Thread state projected for the static-access opcodes: the constant pool,
the per-class initializer slot (`classInitializer`, `none` once cleared), the
current code object (`t->code`, by identity), the instruction pointer, and the
control disposition.  The stack effect of the actual field read/write is
independent of the initializer logic and is not tracked here. -/
structure CState where
  pool : List PoolEntry
  classInit : Nat → Option Nat
  codeObj : Nat
  ip : Nat
  ctl : Ctl

/-- One access site: the code array of the containing method and the address
of the `getstatic`/`putstatic` opcode byte.  The clinit logic of the two
opcodes is identical (run.cpp:945-951 and run.cpp:1959-1965). -/
structure AccessOp where
  code : List Nat
  pc : Nat
  deriving DecidableEq, Repr

/-- Source `case getstatic`/`case putstatic`, initializer part: read the
2-byte pool index (so `ip` reaches `pc + 3`), resolve the field (an error goes
to `throw_`), and if the field's class still has an initializer: null the
initializer slot, set `code` to the clinit, rewind `ip` by 3 (back to this
opcode), and go to the `invoke` transition; otherwise fall through to the
actual static access. -/
def accessStep (finder : Nat → Option Nat) (classes : Nat → ClassInfo)
    (fuel : Nat) (fieldClass : Nat → Nat) (op : AccessOp) (s : CState) :
    CState :=
  let index := be16 (codeBody op.code (op.pc + 1)) (codeBody op.code (op.pc + 2))
  let r := resolveFieldSlot finder classes fuel s.pool (index - 1)
  if r.raised then
    { s with pool := r.pool, ip := op.pc + 3, ctl := .thrown }
  else
    let k := fieldClass (entityId r.result)
    match s.classInit k with
    | some clinit =>
      { s with pool := r.pool
               classInit := fun c => if c = k then none else s.classInit c
               codeObj := clinit
               ip := op.pc + 3 - 3
               ctl := .invoke }
    | none => { s with pool := r.pool, ip := op.pc + 3, ctl := .fall }

/-- The class whose initializer a static access invokes, if any: defined iff
the field resolves and its class's initializer slot is still non-null. -/
def invokedClinit (finder : Nat → Option Nat) (classes : Nat → ClassInfo)
    (fuel : Nat) (fieldClass : Nat → Nat) (op : AccessOp) (s : CState) :
    Option Nat :=
  let index := be16 (codeBody op.code (op.pc + 1)) (codeBody op.code (op.pc + 2))
  let r := resolveFieldSlot finder classes fuel s.pool (index - 1)
  if r.raised then none
  else
    let k := fieldClass (entityId r.result)
    match s.classInit k with
    | some _ => some k
    | none => none

/-- The number of times a sequence of static accesses invokes class `k`'s
initializer. -/
def clinitRuns (finder : Nat → Option Nat) (classes : Nat → ClassInfo)
    (fuel : Nat) (fieldClass : Nat → Nat) (k : Nat) :
    List AccessOp → CState → Nat
  | [], _ => 0
  | op :: ops, s =>
    (if invokedClinit finder classes fuel fieldClass op s = some k then 1 else 0)
      + clinitRuns finder classes fuel fieldClass k ops
          (accessStep finder classes fuel fieldClass op s)

/-!
Theorems.
-/

/-- C5: the claim states that `bipush` pushes its one-byte immediate
sign-extended and `sipush` its two-byte big-endian immediate sign-extended.
The code pushes both zero-extended.  At the immediate byte `0xFF`, `bipush`
pushes the word 255 while sign extension yields the word for −1
(4294967295); at the immediate `0xFFFF`, `sipush` pushes 65535 while sign
extension yields the word for −1. -/
theorem bipush_sipush_zero_extend_on_negative :
    (bipushStep [0x10, 0xFF] 1 []).2 = [255]
  ∧ pushInt [] (signExtend8 0xFF) = [4294967295]
  ∧ (sipushStep [0x11, 0xFF, 0xFF] 1 []).2 = [65535]
  ∧ pushInt [] (signExtend16 0xFFFF) = [4294967295]
  ∧ (255 : Nat) ≠ 4294967295 ∧ (65535 : Nat) ≠ 4294967295 := by
  decide

/-- C6: the claim states that `iushr` computes the logical (unsigned) right
shift, zero-filling the high bits for negative operands.  The code shifts the
signed value arithmetically and only casts the result.  At `a = −2`, `b = 1`
the code produces the word for −1 (4294967295) while the logical shift of
the pattern of −2 produces 2147483647. -/
theorem iushr_is_arithmetic_shift_on_negative :
    iushrStep (pushInt (pushInt [] (-2)) 1) = [4294967295]
  ∧ iushrLogical (pushInt (pushInt [] (-2)) 1) = [2147483647]
  ∧ (4294967295 : Nat) ≠ 2147483647 := by
  decide

/-- C7: the claim states that both `goto_w` and `jsr_w` apply their 32-bit
offset relative to the opcode's own address.  `goto_w` does
(`ip = (ip − 5) + offset` after consuming 4 offset bytes), and `jsr_w` pushes
the correct return address `pc + 5`, but `jsr_w` rebases with `ip − 3`, so
its target is `pc + offset + 2`: at `pc = 0` with offset 10 it branches to 12
instead of 10. -/
theorem jsr_w_target_off_by_two :
    gotoWStep [0xc8, 0, 0, 0, 10] 0 = 10
  ∧ (jsrWStep [0xc9, 0, 0, 0, 10] 0 []).1 = [5]
  ∧ (jsrWStep [0xc9, 0, 0, 0, 10] 0 []).2 = 12
  ∧ (12 : Nat) ≠ 10 := by
  decide

/-- C8: the claim states that `wide iinc` adds its sign-extended 16-bit
increment to the local.  The code holds the count in a `uint16_t` and adds it
zero-extended: at local value 0 and count bytes `0xFF 0xFF` (the encoding of
−1) the code stores 65535, while the sign-extended addition stores the word
for −1 (4294967295). -/
theorem wide_iinc_zero_extends_count :
    (wideIincStep [0, 0, 0xFF, 0xFF] 0 [0]).1 = [65535]
  ∧ (wideIincSigned [0, 0, 0xFF, 0xFF] 0 [0]).1 = [4294967295]
  ∧ (65535 : Nat) ≠ 4294967295 := by
  decide

/-- C9: the claim states that `lneg` pops one 64-bit long (two slots) and
pushes its 64-bit negation.  The code pops a single 32-bit slot
(`pushLong(t, - popInt(t))`), so on a stack holding exactly the long value 1
(two slots) it leaves three slots instead of two; the claim's semantics
leaves the two slots of −1. -/
theorem lneg_pops_single_slot :
    (lnegStepCode (pushLong [] 1)).length = 3
  ∧ (lnegStepClaim (pushLong [] 1)).length = 2
  ∧ (popLong (lnegStepClaim (pushLong [] 1))).1 = -1
  ∧ (3 : Nat) ≠ 2 := by
  decide

/-- C1: the claim states that the monitor acquired by a synchronized method is
released exactly once on every exit path, including exception unwind.
Evaluated on a synchronized instance method (receiver object 7, initial count
0, empty handler table): `pushFrame` acquires (count 1) and the normal-return
`popFrame` releases (count 0), but the `throw_` frame walk discards the frame
with `frame = frameNext` and never calls `release`, leaving the count at 1
after the unwind completes. -/
theorem synchronized_monitor_leaks_on_unwind :
    ((pushFrame ⟨false, true, false, 9, 1, 1, []⟩
        ⟨[Value.obj (some 7)], [], fun _ => 0, 0, none⟩).monitors 7 = 1)
  ∧ ((popFrame (pushFrame ⟨false, true, false, 9, 1, 1, []⟩
        ⟨[Value.obj (some 7)], [], fun _ => 0, 0, none⟩)).monitors 7 = 0)
  ∧ ((throwStep ⟨fun _ => none, fun _ => none, fun _ => false, fun _ => [], fun _ => 0⟩ 8
        { pushFrame ⟨false, true, false, 9, 1, 1, []⟩
            ⟨[Value.obj (some 7)], [], fun _ => 0, 0, none⟩ with
          exception := some 99, ip := 5 }).monitors 7 = 1)
  ∧ ((throwStep ⟨fun _ => none, fun _ => none, fun _ => false, fun _ => [], fun _ => 0⟩ 8
        { pushFrame ⟨false, true, false, 9, 1, 1, []⟩
            ⟨[Value.obj (some 7)], [], fun _ => 0, 0, none⟩ with
          exception := some 99, ip := 5 }).frames = [])
  ∧ (1 : Nat) ≠ 0 := by
  refine ⟨by decide, by decide, by decide, by decide, by decide⟩

/-- Setting one list index leaves every other index unchanged. -/
theorem getD_set_ne {α : Type} (l : List α) (i j : Nat) (v d : α)
    (h : i ≠ j) : (l.set i v).getD j d = l.getD j d := by
  induction l generalizing i j with
  | nil => simp
  | cons a as ih =>
    cases i with
    | zero => cases j with
      | zero => exact absurd rfl h
      | succ j => simp [List.set, List.getD]
    | succ i => cases j with
      | zero => simp [List.set, List.getD]
      | succ j =>
        simp only [List.set, List.getD_cons_succ]
        exact ih i j (fun he => h (by rw [he]))

/-- C4: once a constant-pool slot holds a resolved entity, a second resolution
of that slot by any of `resolveClass`, `resolveField` or `resolveMethod` is a
no-op returning the same handle (the pool is unchanged, the slot's content is
returned, and no error is raised), and a resolution of any slot `j` leaves the
resolved slot `i` intact, so the slot never reverts to its symbolic form. -/
theorem resolution_idempotent_and_monotonic (finder : Nat → Option Nat)
    (classes : Nat → ClassInfo) (fuel : Nat) (pool : List PoolEntry)
    (i j e : Nat) (h : pool.getD i .nullRef = .entity e) :
    resolveClassSlot finder pool i = ⟨pool, .entity e, false⟩
  ∧ resolveFieldSlot finder classes fuel pool i = ⟨pool, .entity e, false⟩
  ∧ resolveMethodSlot finder classes fuel pool i = ⟨pool, .entity e, false⟩
  ∧ (resolveClassSlot finder pool j).pool.getD i .nullRef = .entity e
  ∧ (resolveFieldSlot finder classes fuel pool j).pool.getD i .nullRef = .entity e
  ∧ (resolveMethodSlot finder classes fuel pool j).pool.getD i .nullRef = .entity e := by
  have hset : ∀ (v : PoolEntry) (w : PoolEntry),
      pool.getD j .nullRef = w → w ≠ .entity e →
      (pool.set j v).getD i .nullRef = .entity e := by
    intro v w hj hw
    have hij : j ≠ i := by
      intro he
      rw [he, h] at hj
      exact hw hj.symm
    rw [getD_set_ne pool j i v .nullRef hij, h]
  refine ⟨?_, ?_, ?_, ?_, ?_, ?_⟩
  · unfold resolveClassSlot; rw [h]
  · unfold resolveFieldSlot resolveMemberSlot; rw [h]
  · unfold resolveMethodSlot resolveMemberSlot; rw [h]
  · unfold resolveClassSlot
    split
    · rename_i n hj
      split
      · exact hset _ _ hj (by simp)
      · exact h
    · exact h
  · unfold resolveFieldSlot resolveMemberSlot
    split
    · rename_i cn nm sp hj
      split
      · exact h
      · split
        · exact hset _ _ hj (by simp)
        · exact hset _ _ hj (by simp)
    · exact h
  · unfold resolveMethodSlot resolveMemberSlot
    split
    · rename_i cn nm sp hj
      split
      · exact h
      · split
        · exact hset _ _ hj (by simp)
        · exact hset _ _ hj (by simp)
    · exact h

/-- Witness for `resolution_idempotent_and_monotonic`: a concrete pool whose
slot 0 is resolved to entity 21 and whose slot 1 is still symbolic; resolving
slot 0 again is a no-op and resolving slot 1 leaves slot 0 resolved. -/
theorem resolution_idempotent_and_monotonic_witness :
    ([PoolEntry.entity 21, PoolEntry.byteArray 4].getD 0 .nullRef
        = PoolEntry.entity 21)
  ∧ (resolveClassSlot (fun n => if n = 4 then some 8 else none)
        [PoolEntry.entity 21, PoolEntry.byteArray 4] 0
        = ⟨[PoolEntry.entity 21, PoolEntry.byteArray 4], .entity 21, false⟩
    ∧ resolveFieldSlot (fun n => if n = 4 then some 8 else none)
        (fun _ => ⟨none, [], []⟩) 3
        [PoolEntry.entity 21, PoolEntry.byteArray 4] 0
        = ⟨[PoolEntry.entity 21, PoolEntry.byteArray 4], .entity 21, false⟩
    ∧ resolveMethodSlot (fun n => if n = 4 then some 8 else none)
        (fun _ => ⟨none, [], []⟩) 3
        [PoolEntry.entity 21, PoolEntry.byteArray 4] 0
        = ⟨[PoolEntry.entity 21, PoolEntry.byteArray 4], .entity 21, false⟩
    ∧ (resolveClassSlot (fun n => if n = 4 then some 8 else none)
        [PoolEntry.entity 21, PoolEntry.byteArray 4] 1).pool.getD 0 .nullRef
        = PoolEntry.entity 21
    ∧ (resolveFieldSlot (fun n => if n = 4 then some 8 else none)
        (fun _ => ⟨none, [], []⟩) 3
        [PoolEntry.entity 21, PoolEntry.byteArray 4] 1).pool.getD 0 .nullRef
        = PoolEntry.entity 21
    ∧ (resolveMethodSlot (fun n => if n = 4 then some 8 else none)
        (fun _ => ⟨none, [], []⟩) 3
        [PoolEntry.entity 21, PoolEntry.byteArray 4] 1).pool.getD 0 .nullRef
        = PoolEntry.entity 21) :=
  ⟨by decide,
   resolution_idempotent_and_monotonic (fun n => if n = 4 then some 8 else none)
     (fun _ => ⟨none, [], []⟩) 3
     [PoolEntry.entity 21, PoolEntry.byteArray 4] 0 1 21 (by decide)⟩

/-- C10: with a null top-of-stack operand, `checkcast` and `instanceof`
consume their two index bytes and never resolve the referenced class:
`checkcast` only advances `ip`, leaving stack, pool and exception untouched,
and `instanceof` additionally pushes 0; both results are independent of the
resolution context, so no link or cast exception can arise even when the
named class is unresolvable. -/
theorem checkcast_instanceof_null_operand (ctx ctx' : Ctx) (fuel fuel' : Nat)
    (s : TState) (h : peekObj s.stack = none) :
    checkcastStep ctx fuel s = { s with ip := s.ip + 2 }
  ∧ instanceofStep ctx fuel s = { s with ip := s.ip + 2, stack := .int 0 :: s.stack }
  ∧ checkcastStep ctx fuel s = checkcastStep ctx' fuel' s
  ∧ instanceofStep ctx fuel s = instanceofStep ctx' fuel' s := by
  refine ⟨?_, ?_, ?_, ?_⟩ <;> simp only [checkcastStep, instanceofStep, h]

/-- Witness for `checkcast_instanceof_null_operand`: a concrete state with a
null operand and an index naming a symbolic pool slot that the class finder
cannot resolve; both opcodes still complete without touching the pool or
raising. -/
theorem checkcast_instanceof_null_operand_witness :
    (peekObj ([Value.obj none] : List Value) = none)
  ∧ (checkcastStep ⟨fun _ => none, fun _ => none, fun _ => false, fun _ => [], fun _ => 0⟩ 4
        ⟨[0, 1], 0, [Value.obj none], [PoolEntry.byteArray 6], none⟩
      = { code := [0, 1], ip := 2, stack := [Value.obj none],
          pool := [PoolEntry.byteArray 6], exception := none }
    ∧ instanceofStep ⟨fun _ => none, fun _ => none, fun _ => false, fun _ => [], fun _ => 0⟩ 4
        ⟨[0, 1], 0, [Value.obj none], [PoolEntry.byteArray 6], none⟩
      = { code := [0, 1], ip := 2, stack := [Value.int 0, Value.obj none],
          pool := [PoolEntry.byteArray 6], exception := none }
    ∧ checkcastStep ⟨fun _ => none, fun _ => none, fun _ => false, fun _ => [], fun _ => 0⟩ 4
        ⟨[0, 1], 0, [Value.obj none], [PoolEntry.byteArray 6], none⟩
      = checkcastStep ⟨fun n => some n, some, fun _ => true, fun _ => [3], fun _ => 1⟩ 9
        ⟨[0, 1], 0, [Value.obj none], [PoolEntry.byteArray 6], none⟩
    ∧ instanceofStep ⟨fun _ => none, fun _ => none, fun _ => false, fun _ => [], fun _ => 0⟩ 4
        ⟨[0, 1], 0, [Value.obj none], [PoolEntry.byteArray 6], none⟩
      = instanceofStep ⟨fun n => some n, some, fun _ => true, fun _ => [3], fun _ => 1⟩ 9
        ⟨[0, 1], 0, [Value.obj none], [PoolEntry.byteArray 6], none⟩) :=
  ⟨by decide,
   checkcast_instanceof_null_operand
     ⟨fun _ => none, fun _ => none, fun _ => false, fun _ => [], fun _ => 0⟩
     ⟨fun n => some n, some, fun _ => true, fun _ => [3], fun _ => 1⟩ 4 9
     ⟨[0, 1], 0, [Value.obj none], [PoolEntry.byteArray 6], none⟩ (by decide)⟩

/-- A static-access step never turns a cleared initializer slot back on. -/
theorem accessStep_classInit_mono (finder : Nat → Option Nat)
    (classes : Nat → ClassInfo) (fuel : Nat) (fieldClass : Nat → Nat)
    (op : AccessOp) (s : CState) (c : Nat) (h : s.classInit c = none) :
    (accessStep finder classes fuel fieldClass op s).classInit c = none := by
  simp only [accessStep]
  split
  · exact h
  · split
    · dsimp only
      split
      · rfl
      · exact h
    · exact h

/-- A static-access step that invokes class `k`'s initializer clears `k`'s
initializer slot. -/
theorem accessStep_clears_invoked (finder : Nat → Option Nat)
    (classes : Nat → ClassInfo) (fuel : Nat) (fieldClass : Nat → Nat)
    (op : AccessOp) (s : CState) (k : Nat)
    (h : invokedClinit finder classes fuel fieldClass op s = some k) :
    (accessStep finder classes fuel fieldClass op s).classInit k = none := by
  simp only [invokedClinit] at h
  simp only [accessStep]
  split
  · rename_i hr
    rw [if_pos hr] at h
    exact absurd h (by simp)
  · rename_i hr
    rw [if_neg hr] at h
    split
    · rename_i clinit hk
      dsimp only
      rw [hk] at h
      have : fieldClass (entityId (resolveFieldSlot finder classes fuel s.pool
          (be16 (codeBody op.code (op.pc + 1)) (codeBody op.code (op.pc + 2)) - 1)).result)
          = k := by
        have := h
        simp at this
        exact this
      rw [if_pos this.symm]
    · rename_i hk
      rw [hk] at h
      exact absurd h (by simp)

/-- A static-access step cannot invoke the initializer of a class whose slot
is already cleared. -/
theorem accessStep_no_invoke_of_cleared (finder : Nat → Option Nat)
    (classes : Nat → ClassInfo) (fuel : Nat) (fieldClass : Nat → Nat)
    (op : AccessOp) (s : CState) (k : Nat) (h : s.classInit k = none) :
    invokedClinit finder classes fuel fieldClass op s ≠ some k := by
  simp only [invokedClinit]
  split
  · exact fun hc => absurd hc (by simp)
  · split
    · rename_i clinit hk
      intro hc
      have : fieldClass (entityId (resolveFieldSlot finder classes fuel s.pool
          (be16 (codeBody op.code (op.pc + 1)) (codeBody op.code (op.pc + 2)) - 1)).result)
          = k := by
        have := hc
        simp at this
        exact this
      rw [this] at hk
      rw [h] at hk
      exact absurd hk (by simp)
    · exact fun hc => absurd hc (by simp)

/-- After `k`'s initializer slot is cleared, no later static access runs it. -/
theorem clinitRuns_zero_of_cleared (finder : Nat → Option Nat)
    (classes : Nat → ClassInfo) (fuel : Nat) (fieldClass : Nat → Nat)
    (k : Nat) (ops : List AccessOp) :
    ∀ s : CState, s.classInit k = none →
      clinitRuns finder classes fuel fieldClass k ops s = 0 := by
  induction ops with
  | nil => intro s _; rfl
  | cons op ops ih =>
    intro s h
    simp only [clinitRuns]
    rw [if_neg (accessStep_no_invoke_of_cleared finder classes fuel fieldClass op s k h)]
    rw [ih _ (accessStep_classInit_mono finder classes fuel fieldClass op s k h)]

/-- C3: a `getstatic`/`putstatic` whose field's class `K` still has an
initializer clears `K`'s initializer slot, sets `code` to the clinit, rewinds
`ip` by 3 (back to the same opcode, which re-executes after the initializer
returns) and goes to the invoke transition; and because the slot is cleared
before the invocation, any sequence of static accesses runs a given class's
initializer at most once. -/
theorem static_access_clinit_runs_once (finder : Nat → Option Nat)
    (classes : Nat → ClassInfo) (fuel : Nat) (fieldClass : Nat → Nat)
    (op : AccessOp) (s : CState) (p : List PoolEntry) (f k m : Nat)
    (ops : List AccessOp) (s2 : CState) (k2 : Nat)
    (hres : resolveFieldSlot finder classes fuel s.pool
        (be16 (codeBody op.code (op.pc + 1)) (codeBody op.code (op.pc + 2)) - 1)
        = ⟨p, .entity f, false⟩)
    (hfc : fieldClass f = k)
    (hk : s.classInit k = some m) :
    (accessStep finder classes fuel fieldClass op s).classInit k = none
  ∧ (accessStep finder classes fuel fieldClass op s).codeObj = m
  ∧ (accessStep finder classes fuel fieldClass op s).ip = op.pc
  ∧ (accessStep finder classes fuel fieldClass op s).ctl = .invoke
  ∧ clinitRuns finder classes fuel fieldClass k2 ops s2 ≤ 1 := by
  have hstep : accessStep finder classes fuel fieldClass op s =
      { s with pool := p
               classInit := fun c => if c = k then none else s.classInit c
               codeObj := m
               ip := op.pc + 3 - 3
               ctl := .invoke } := by
    simp only [accessStep, hres]
    rw [if_neg (by simp)]
    dsimp only [entityId]
    rw [hfc, hk]
  have hrun : ∀ (ops2 : List AccessOp) (s3 : CState),
      clinitRuns finder classes fuel fieldClass k2 ops2 s3 ≤ 1 := by
    intro ops2
    induction ops2 with
    | nil => intro s3; exact Nat.zero_le 1
    | cons op2 rest ih =>
      intro s3
      simp only [clinitRuns]
      by_cases hi : invokedClinit finder classes fuel fieldClass op2 s3 = some k2
      · rw [if_pos hi]
        rw [clinitRuns_zero_of_cleared finder classes fuel fieldClass k2 rest _
          (accessStep_clears_invoked finder classes fuel fieldClass op2 s3 k2 hi)]
      · rw [if_neg hi]
        exact Nat.le_trans (Nat.le_of_eq (Nat.zero_add _)) (ih _)
  refine ⟨?_, ?_, ?_, ?_, hrun ops s2⟩
  · rw [hstep]; simp
  · rw [hstep]
  · rw [hstep]; simp
  · rw [hstep]

/-- Witness for `static_access_clinit_runs_once`: slot 0 of the pool already
holds field entity 21 of class 3, whose initializer is method 77; two
successive accesses to the same site run the initializer exactly once. -/
theorem static_access_clinit_runs_once_witness :
    (resolveFieldSlot (fun _ => none) (fun _ => ⟨none, [], []⟩) 2
        [PoolEntry.entity 21] (be16 (codeBody [0xb2, 0, 1] 1) (codeBody [0xb2, 0, 1] 2) - 1)
        = ⟨[PoolEntry.entity 21], .entity 21, false⟩)
  ∧ ((fun _ : Nat => (3 : Nat)) 21 = 3)
  ∧ ((fun c : Nat => if c = 3 then some 77 else none) 3 = some 77)
  ∧ ((accessStep (fun _ => none) (fun _ => ⟨none, [], []⟩) 2 (fun _ => 3)
        ⟨[0xb2, 0, 1], 0⟩
        ⟨[PoolEntry.entity 21], fun c => if c = 3 then some 77 else none, 0, 3, .fall⟩).classInit 3 = none
    ∧ (accessStep (fun _ => none) (fun _ => ⟨none, [], []⟩) 2 (fun _ => 3)
        ⟨[0xb2, 0, 1], 0⟩
        ⟨[PoolEntry.entity 21], fun c => if c = 3 then some 77 else none, 0, 3, .fall⟩).codeObj = 77
    ∧ (accessStep (fun _ => none) (fun _ => ⟨none, [], []⟩) 2 (fun _ => 3)
        ⟨[0xb2, 0, 1], 0⟩
        ⟨[PoolEntry.entity 21], fun c => if c = 3 then some 77 else none, 0, 3, .fall⟩).ip = 0
    ∧ (accessStep (fun _ => none) (fun _ => ⟨none, [], []⟩) 2 (fun _ => 3)
        ⟨[0xb2, 0, 1], 0⟩
        ⟨[PoolEntry.entity 21], fun c => if c = 3 then some 77 else none, 0, 3, .fall⟩).ctl = .invoke
    ∧ clinitRuns (fun _ => none) (fun _ => ⟨none, [], []⟩) 2 (fun _ => 3) 3
        [⟨[0xb2, 0, 1], 0⟩, ⟨[0xb2, 0, 1], 0⟩]
        ⟨[PoolEntry.entity 21], fun c => if c = 3 then some 77 else none, 0, 3, .fall⟩ ≤ 1) :=
  ⟨by decide, by decide, by decide,
   static_access_clinit_runs_once (fun _ => none) (fun _ => ⟨none, [], []⟩) 2 (fun _ => 3)
     ⟨[0xb2, 0, 1], 0⟩
     ⟨[PoolEntry.entity 21], fun c => if c = 3 then some 77 else none, 0, 3, .fall⟩
     [PoolEntry.entity 21] 21 3 77
     [⟨[0xb2, 0, 1], 0⟩, ⟨[0xb2, 0, 1], 0⟩]
     ⟨[PoolEntry.entity 21], fun c => if c = 3 then some 77 else none, 0, 3, .fall⟩ 3
     (by decide) (by decide) (by decide)⟩

/-- For instruction pointers in `[1, 2^32)` the unsigned decrement of the
handler-range test is plain subtraction. -/
theorem u32pred_eq_sub (ip : Nat) (h1 : 1 ≤ ip) (h2 : ip < 2 ^ 32) :
    u32pred ip = ip - 1 := by
  have hp : (2 : Nat) ^ 32 = 4294967296 := by norm_num
  unfold u32pred
  rw [hp] at h2 ⊢
  omega

/-- The nested handler scan of the `throw_` loop selects exactly the first
handler satisfying the claim's match predicate, for in-range instruction
pointers. -/
theorem findHandlerCode_eq_findFirst (ctx : Ctx) (fuel exc ip : Nat)
    (h1 : 1 ≤ ip) (h2 : ip < 2 ^ 32) (hs : List Handler) :
    findHandlerCode ctx fuel exc ip hs =
      hs.find? (handlerMatches ctx fuel exc ip) := by
  induction hs with
  | nil => rfl
  | cons eh rest ih =>
    rw [findHandlerCode, u32pred_eq_sub ip h1 h2]
    by_cases hr : eh.startPc ≤ ip - 1 ∧ ip - 1 < eh.endPc
    · rw [if_pos hr]
      cases hct : eh.catchType with
      | none =>
        have hm : handlerMatches ctx fuel exc ip eh = true := by
          simp [handlerMatches, hct, hr.1, hr.2]
        rw [List.find?_cons_of_pos rest hm]
      | some c =>
        show (if instanceOf ctx fuel c (some exc) = true then some eh
          else findHandlerCode ctx fuel exc ip rest) = _
        by_cases hi : instanceOf ctx fuel c (some exc) = true
        · have hm : handlerMatches ctx fuel exc ip eh = true := by
            simp [handlerMatches, hct, hr.1, hr.2, hi]
          rw [List.find?_cons_of_pos rest hm, if_pos hi]
        · have hm : handlerMatches ctx fuel exc ip eh = false := by
            simp only [handlerMatches, hct]
            simp [Bool.eq_false_iff.mpr hi]
          rw [List.find?_cons_of_neg rest (by rw [hm]; exact Bool.false_ne_true),
            if_neg hi, ih]
    · rw [if_neg hr]
      have hm : handlerMatches ctx fuel exc ip eh = false := by
        simp only [handlerMatches]
        rcases Decidable.not_and_iff_or_not.mp hr with hx | hx <;> simp [hx]
      rw [List.find?_cons_of_neg rest (by rw [hm]; exact Bool.false_ne_true), ih]

/-- The frame walk of `throw_` agrees with the claim's description of it, for
frames whose saved instruction pointers are in `[1, 2^32)`. -/
theorem unwindCode_eq_unwindSpec (ctx : Ctx) (fuel exc : Nat)
    (frames : List UFrame)
    (hip : ∀ f ∈ frames, 1 ≤ f.savedIp ∧ f.savedIp < 2 ^ 32) :
    unwindCode ctx fuel exc frames = unwindSpec ctx fuel exc frames := by
  induction frames with
  | nil => rfl
  | cons f rest ih =>
    have hf := hip f (List.mem_cons_self f rest)
    have hr := fun f' h => hip f' (List.mem_cons_of_mem f h)
    rw [unwindCode, unwindSpec,
      findHandlerCode_eq_findFirst ctx fuel exc f.savedIp hf.1 hf.2, ih hr]

/-- When the frame walk finds a handling frame, the effects on the thread
state are the matched-handler actions of run.cpp:2183-2186. -/
theorem unwindFrames_of_handled (ctx : Ctx) (fuel exc : Nat)
    (stack : List Value) (mon : Nat → Nat) (frames : List UFrame)
    (f : UFrame) (eh : Handler) (rest : List UFrame)
    (h : unwindCode ctx fuel exc frames = .handled f eh rest) :
    unwindFrames ctx fuel exc stack mon frames =
      ⟨stack.take (f.pos + FrameFootprint) ++ [Value.obj (some exc)],
       f :: rest, mon, eh.handlerPc, none⟩ := by
  induction frames with
  | nil => exact absurd h (by rw [unwindCode]; exact fun hc => UnwindResult.noConfusion hc)
  | cons g gs ih =>
    rw [unwindCode] at h
    rw [unwindFrames]
    by_cases hn : g.method.isNative = true
    · rw [if_pos hn] at h
      exact absurd h (fun hc => UnwindResult.noConfusion hc)
    · rw [if_neg hn] at h
      rw [if_neg hn]
      cases hfind : findHandlerCode ctx fuel exc g.savedIp g.method.handlers with
      | some eh2 =>
        rw [hfind] at h
        cases h
        rfl
      | none =>
        rw [hfind] at h
        exact ih h

/-- C2: with an exception pending, the unwinder walks frames from current to
root and in each non-native frame selects the first handler whose
`[startPc, endPc)` contains `ip − 1` and whose catch type is null or satisfies
`instanceOf`; on a match it truncates the operand stack to
`frame + FrameFootprint`, pushes the exception as the sole operand, sets `ip`
to the handler's pc, clears the pending exception and resumes dispatch. -/
theorem unwinder_first_match_and_effects (ctx : Ctx) (fuel exc : Nat)
    (stack : List Value) (mon : Nat → Nat) (frames : List UFrame)
    (f : UFrame) (eh : Handler) (rest : List UFrame)
    (hip : ∀ f' ∈ frames, 1 ≤ f'.savedIp ∧ f'.savedIp < 2 ^ 32)
    (hlen : f.pos + FrameFootprint ≤ stack.length)
    (h : unwindCode ctx fuel exc frames = .handled f eh rest) :
    unwindCode ctx fuel exc frames = unwindSpec ctx fuel exc frames
  ∧ (unwindFrames ctx fuel exc stack mon frames).stack
      = stack.take (f.pos + FrameFootprint) ++ [Value.obj (some exc)]
  ∧ (unwindFrames ctx fuel exc stack mon frames).stack.length
      = f.pos + FrameFootprint + 1
  ∧ (unwindFrames ctx fuel exc stack mon frames).stack.drop (f.pos + FrameFootprint)
      = [Value.obj (some exc)]
  ∧ (unwindFrames ctx fuel exc stack mon frames).ip = eh.handlerPc
  ∧ (unwindFrames ctx fuel exc stack mon frames).exception = none
  ∧ (unwindFrames ctx fuel exc stack mon frames).frames = f :: rest := by
  have he := unwindFrames_of_handled ctx fuel exc stack mon frames f eh rest h
  have htake : (stack.take (f.pos + FrameFootprint)).length
      = f.pos + FrameFootprint := by
    rw [List.length_take]
    exact Nat.min_eq_left hlen
  refine ⟨unwindCode_eq_unwindSpec ctx fuel exc frames hip, ?_, ?_, ?_, ?_, ?_, ?_⟩
  · rw [he]
  · rw [he]
    simp only [List.length_append, htake, List.length_cons, List.length_nil]
  · rw [he]
    show (stack.take (f.pos + FrameFootprint) ++ [Value.obj (some exc)]).drop
        (f.pos + FrameFootprint) = [Value.obj (some exc)]
    generalize hg : stack.take (f.pos + FrameFootprint) = l
    rw [hg] at htake
    rw [← htake, List.drop_left]
  · rw [he]
  · rw [he]
  · rw [he]

/-- Witness for `unwinder_first_match_and_effects`: two frames, the inner one
without handlers and the outer one with a non-matching handler followed by a
matching one (`ip − 1 = 19` lies in `[10, 30)` and the exception's class 5
extends the catch class 4); the walk selects the second handler of the outer
frame and performs the matched-handler actions. -/
theorem unwinder_first_match_and_effects_witness :
    ((∀ f' ∈ [(⟨⟨false, false, false, 0, 0, 0, []⟩, 0, 10, 2⟩ : UFrame),
        ⟨⟨false, false, false, 0, 0, 0,
          [⟨0, 5, 100, none⟩, ⟨10, 30, 200, some 4⟩]⟩, 0, 20, 1⟩],
        1 ≤ f'.savedIp ∧ f'.savedIp < 2 ^ 32)
    ∧ (⟨⟨false, false, false, 0, 0, 0,
          [⟨0, 5, 100, none⟩, ⟨10, 30, 200, some 4⟩]⟩, 0, 20, 1⟩ : UFrame).pos
        + FrameFootprint ≤ (List.replicate 6 (Value.int 0)).length
    ∧ unwindCode ⟨fun _ => none, (fun c => if c = 5 then some 4 else none),
          fun _ => false, fun _ => [], fun o => if o = 50 then 5 else 0⟩ 3 50
        [⟨⟨false, false, false, 0, 0, 0, []⟩, 0, 10, 2⟩,
         ⟨⟨false, false, false, 0, 0, 0,
           [⟨0, 5, 100, none⟩, ⟨10, 30, 200, some 4⟩]⟩, 0, 20, 1⟩]
        = .handled ⟨⟨false, false, false, 0, 0, 0,
            [⟨0, 5, 100, none⟩, ⟨10, 30, 200, some 4⟩]⟩, 0, 20, 1⟩
            ⟨10, 30, 200, some 4⟩ [])
  ∧ ((unwindFrames ⟨fun _ => none, (fun c => if c = 5 then some 4 else none),
          fun _ => false, fun _ => [], fun o => if o = 50 then 5 else 0⟩ 3 50
        (List.replicate 6 (Value.int 0)) (fun _ => 0)
        [⟨⟨false, false, false, 0, 0, 0, []⟩, 0, 10, 2⟩,
         ⟨⟨false, false, false, 0, 0, 0,
           [⟨0, 5, 100, none⟩, ⟨10, 30, 200, some 4⟩]⟩, 0, 20, 1⟩]).stack
        = (List.replicate 6 (Value.int 0)).take 5 ++ [Value.obj (some 50)]
    ∧ (unwindFrames ⟨fun _ => none, (fun c => if c = 5 then some 4 else none),
          fun _ => false, fun _ => [], fun o => if o = 50 then 5 else 0⟩ 3 50
        (List.replicate 6 (Value.int 0)) (fun _ => 0)
        [⟨⟨false, false, false, 0, 0, 0, []⟩, 0, 10, 2⟩,
         ⟨⟨false, false, false, 0, 0, 0,
           [⟨0, 5, 100, none⟩, ⟨10, 30, 200, some 4⟩]⟩, 0, 20, 1⟩]).ip = 200
    ∧ (unwindFrames ⟨fun _ => none, (fun c => if c = 5 then some 4 else none),
          fun _ => false, fun _ => [], fun o => if o = 50 then 5 else 0⟩ 3 50
        (List.replicate 6 (Value.int 0)) (fun _ => 0)
        [⟨⟨false, false, false, 0, 0, 0, []⟩, 0, 10, 2⟩,
         ⟨⟨false, false, false, 0, 0, 0,
           [⟨0, 5, 100, none⟩, ⟨10, 30, 200, some 4⟩]⟩, 0, 20, 1⟩]).exception
        = none) :=
  ⟨⟨by decide, by decide, by decide⟩,
   (unwinder_first_match_and_effects
      ⟨fun _ => none, (fun c => if c = 5 then some 4 else none),
        fun _ => false, fun _ => [], fun o => if o = 50 then 5 else 0⟩ 3 50
      (List.replicate 6 (Value.int 0)) (fun _ => 0)
      [⟨⟨false, false, false, 0, 0, 0, []⟩, 0, 10, 2⟩,
       ⟨⟨false, false, false, 0, 0, 0,
         [⟨0, 5, 100, none⟩, ⟨10, 30, 200, some 4⟩]⟩, 0, 20, 1⟩]
      ⟨⟨false, false, false, 0, 0, 0,
        [⟨0, 5, 100, none⟩, ⟨10, 30, 200, some 4⟩]⟩, 0, 20, 1⟩
      ⟨10, 30, 200, some 4⟩ []
      (by decide) (by decide) (by decide)).elim
     fun _ rest2 => ⟨rest2.1, rest2.2.2.2.1, rest2.2.2.2.2.1⟩⟩

end AvianRun
